import Mathlib

/-!
Verification development for the serial stream ingestion and time-series
aggregation engine of the arduino-serial-data-viewer repository.

The embedding models, from the TypeScript source:
  - the delimiter reassembler of `readLoop` in `src/hooks/useArduino.ts`
    (the identical splitting logic also appears in the `_currentCallback`
    of `src/hooks/useArduinoCreateAgent.ts`);
  - the throttled chart-update pipeline, raw record log, channel registry
    (`series` map), disconnect recompute, clear, connect, CSV export and
    statistics of the page component (`updateChartData`, `options.onRead`,
    `handleConnect`, `handleDisconnect`, `handleClear`, `exportToCSV`,
    `calculateStatistics`);
  - the lodash-style throttle used through ahooks `useThrottleFn`, and the
    JavaScript `JSON.parse` builtin on the flat record forms this
    application exchanges, both external dependencies of the source.

Strings of the stream are modelled as lists of characters; JavaScript
numbers are modelled as exact rationals extended with NaN and signed
infinities where the statistics path can produce them.
-/

namespace ASDV

/-! ## Delimiter reassembler (`readLoop`, src/hooks/useArduino.ts lines 67-105) -/

/-- Replace the head element of a list of pieces, leaving the rest alone.
Used to express prepending text to the first piece of a split. -/
def mapHead (f : List Char → List Char) : List (List Char) → List (List Char)
  | [] => []
  | x :: xs => f x :: xs

/-- JavaScript `String.split` with a non-empty string separator: scan left to
right, cutting at each non-overlapping occurrence of the separator.
`value.split(readDelimiter)` in `readLoop` is this function on character
lists.  The scan carries an explicit fuel argument (one unit per consumed
character) so that the recursion is structural; the wrapper `splitOnSep`
instantiates the fuel with the string length, which `splitOnSepF_fuel`
proves is always enough.  For an empty separator the scan never cuts (that
case is unreachable in the source, which tests `readDelimiter === ""`
first). -/
def splitOnSepF (sep : List Char) : Nat → List Char → List (List Char)
  | _, [] => [[]]
  | 0, s => [s]
  | fuel + 1, x :: xs =>
    if sep ≠ [] ∧ sep.isPrefixOf (x :: xs) then
      [] :: splitOnSepF sep fuel (xs.drop (sep.length - 1))
    else
      mapHead (x :: ·) (splitOnSepF sep fuel xs)

/-- `String.split` on character lists, with the fuel of `splitOnSepF`
instantiated to the string length (always sufficient, by
`splitOnSepF_fuel`). -/
def splitOnSep (sep s : List Char) : List (List Char) :=
  splitOnSepF sep s.length s

/-- One pass of the body of `readLoop` for a single delivered chunk: given the
pending buffer (`readData`) and the chunk (`value`), return the records
passed to `onRead`, in order, together with the new buffer.  Mirrors
src/hooks/useArduino.ts lines 73-97: a falsy (empty) chunk is ignored; with
an empty delimiter the chunk is emitted immediately; a chunk whose split has
a single piece is appended to the buffer; otherwise the buffer plus the
first piece is emitted, the last piece becomes the new buffer, and the
middle pieces are emitted in order. -/
def readLoopStep (delim buf chunk : List Char) : List (List Char) × List Char :=
  if chunk = [] then ([], buf)
  else if delim = [] then ([chunk], buf)
  else
    let ps := splitOnSep delim chunk
    if ps.length = 1 then ([], buf ++ chunk)
    else
      match ps with
      | [] => ([], buf)
      | p0 :: rest => ((buf ++ p0) :: rest.dropLast, rest.getLastD [])

/-- Feed a sequence of chunks through `readLoopStep`, starting from a given
buffer; returns all emitted records in order and the final pending buffer. -/
def runFrom (delim buf : List Char) : List (List Char) → List (List Char) × List Char
  | [] => ([], buf)
  | ch :: rest =>
    let st := readLoopStep delim buf ch
    let r := runFrom delim st.2 rest
    (st.1 ++ r.1, r.2)

/-- The reassembler as the source runs it: start with an empty buffer. -/
def runReassembler (delim : List Char) (chunks : List (List Char)) :
    List (List Char) × List Char :=
  runFrom delim [] chunks

theorem splitOnSepF_fuel (sep : List Char) :
    ∀ (fuel : Nat) (s : List Char), s.length ≤ fuel →
      splitOnSepF sep fuel s = splitOnSep sep s := by
  intro fuel
  induction fuel using Nat.strong_induction_on with
  | _ fuel ih =>
    intro s hs
    cases s with
    | nil => cases fuel <;> rfl
    | cons x xs =>
      cases fuel with
      | zero => simp at hs
      | succ f =>
        have hxs : xs.length ≤ f := by simp at hs; omega
        have hdropf : (xs.drop (sep.length - 1)).length ≤ f := by
          simp [List.length_drop]; omega
        have hdropx : (xs.drop (sep.length - 1)).length ≤ xs.length := by
          simp [List.length_drop]
        show splitOnSepF sep (f + 1) (x :: xs) =
          splitOnSepF sep (x :: xs).length (x :: xs)
        simp only [List.length_cons, splitOnSepF]
        by_cases hc : sep ≠ [] ∧ sep.isPrefixOf (x :: xs)
        · rw [if_pos hc, if_pos hc,
            ih f (by omega) _ hdropf,
            ih xs.length (by omega) _ hdropx]
        · rw [if_neg hc, if_neg hc,
            ih f (by omega) xs hxs,
            ih xs.length (by omega) xs le_rfl]

theorem splitOnSep_nil (sep : List Char) : splitOnSep sep [] = [[]] := rfl

theorem splitOnSep_cons (sep : List Char) (x : Char) (xs : List Char) :
    splitOnSep sep (x :: xs) =
      if sep ≠ [] ∧ sep.isPrefixOf (x :: xs) then
        [] :: splitOnSep sep (xs.drop (sep.length - 1))
      else
        mapHead (x :: ·) (splitOnSep sep xs) := by
  show splitOnSepF sep (xs.length + 1) (x :: xs) = _
  simp only [splitOnSepF]
  by_cases hc : sep ≠ [] ∧ sep.isPrefixOf (x :: xs)
  · rw [if_pos hc, if_pos hc,
      splitOnSepF_fuel sep xs.length _ (by simp [List.length_drop])]
  · rw [if_neg hc, if_neg hc,
      splitOnSepF_fuel sep xs.length xs le_rfl]

theorem splitOnSep_ne_nil (sep : List Char) : ∀ s, splitOnSep sep s ≠ [] := by
  have key : ∀ n (s : List Char), s.length ≤ n → splitOnSep sep s ≠ [] := by
    intro n
    induction n with
    | zero =>
      intro s hs
      have : s = [] := List.length_eq_zero.mp (Nat.le_zero.mp hs)
      subst this
      simp [splitOnSep_nil]
    | succ n ih =>
      intro s hs
      cases s with
      | nil => simp [splitOnSep_nil]
      | cons x xs =>
        rw [splitOnSep_cons]
        split
        · simp
        · have h2 := ih xs (by simp at hs; omega)
          cases hsp : splitOnSep sep xs with
          | nil => exact absurd hsp h2
          | cons y ys => simp [hsp, mapHead]
  intro s
  exact key s.length s le_rfl

theorem splitOnSep_single_cons (c x : Char) (xs : List Char) :
    splitOnSep [c] (x :: xs) =
      if x = c then [] :: splitOnSep [c] xs
      else mapHead (x :: ·) (splitOnSep [c] xs) := by
  rw [splitOnSep_cons]
  by_cases hxc : x = c
  · subst hxc
    simp [List.isPrefixOf]
  · have hnp : (([c] : List Char).isPrefixOf (x :: xs)) = false := by
      simp [List.isPrefixOf]
      intro hc
      exact absurd hc.symm hxc
    simp [hnp, hxc]

/-- Join two split results: the last piece of the first is glued onto the
first piece of the second.  `splitOnSep` over a concatenation of texts is
`glue` over the individual splits (proved below for single-character
separators, the only shape the page component configures). -/
def glue : List (List Char) → List (List Char) → List (List Char)
  | [], ys => ys
  | [x], ys => mapHead (fun y => x ++ y) ys
  | x :: xs, ys => x :: glue xs ys

theorem glue_nil (ys : List (List Char)) : glue [] ys = ys := rfl

theorem glue_single (x : List Char) (ys : List (List Char)) :
    glue [x] ys = mapHead (fun y => x ++ y) ys := rfl

theorem glue_cons (x : List Char) (l : List (List Char)) (ys : List (List Char))
    (h : l ≠ []) : glue (x :: l) ys = x :: glue l ys := by
  cases l with
  | nil => exact absurd rfl h
  | cons a as => rfl

theorem mapHead_id_append (ys : List (List Char)) :
    mapHead (fun y => [] ++ y) ys = ys := by
  cases ys <;> simp [mapHead]

theorem mapHead_mapHead (f g : List Char → List Char) (ys : List (List Char)) :
    mapHead f (mapHead g ys) = mapHead (fun y => f (g y)) ys := by
  cases ys <;> simp [mapHead]

theorem mapHead_congr (f g : List Char → List Char) (ys : List (List Char))
    (h : ∀ y, f y = g y) : mapHead f ys = mapHead g ys := by
  cases ys <;> simp [mapHead, h]

theorem glue_mapHead (x : Char) (l ys : List (List Char)) (h : l ≠ []) :
    mapHead (x :: ·) (glue l ys) = glue (mapHead (x :: ·) l) ys := by
  cases l with
  | nil => exact absurd rfl h
  | cons p l' =>
    cases l' with
    | nil =>
      rw [glue_single, mapHead_mapHead]
      rfl
    | cons q l'' =>
      rw [glue_cons p (q :: l'') ys (by simp)]
      simp only [mapHead]
      rw [glue_cons (x :: p) (q :: l'') ys (by simp)]

theorem splitOnSep_single_append (c : Char) (a b : List Char) :
    splitOnSep [c] (a ++ b) = glue (splitOnSep [c] a) (splitOnSep [c] b) := by
  induction a with
  | nil =>
    rw [List.nil_append, splitOnSep_nil, glue_single, mapHead_id_append]
  | cons x xs ih =>
    rw [List.cons_append, splitOnSep_single_cons, splitOnSep_single_cons]
    by_cases hxc : x = c
    · rw [if_pos hxc, if_pos hxc, ih,
        glue_cons [] (splitOnSep [c] xs) _ (splitOnSep_ne_nil [c] xs)]
    · rw [if_neg hxc, if_neg hxc, ih,
        glue_mapHead x (splitOnSep [c] xs) _ (splitOnSep_ne_nil [c] xs)]

theorem splitOnSep_single_eq_single (c : Char) :
    ∀ s p, splitOnSep [c] s = [p] → p = s := by
  intro s
  induction s with
  | nil =>
    intro p hp
    rw [splitOnSep_nil] at hp
    exact (List.cons_eq_cons.mp hp).1.symm
  | cons x xs ih =>
    intro p hp
    rw [splitOnSep_single_cons] at hp
    by_cases hxc : x = c
    · rw [if_pos hxc] at hp
      have := (List.cons_eq_cons.mp hp).2
      exact absurd this (splitOnSep_ne_nil [c] xs)
    · rw [if_neg hxc] at hp
      cases hsp : splitOnSep [c] xs with
      | nil => exact absurd hsp (splitOnSep_ne_nil [c] xs)
      | cons q rest =>
        rw [hsp] at hp
        simp only [mapHead] at hp
        obtain ⟨h1, h2⟩ := List.cons_eq_cons.mp hp
        subst h2
        rw [ih q hsp] at h1
        exact h1.symm

theorem getLastD_ne_nil (l : List (List Char)) (a b : List Char) (h : l ≠ []) :
    l.getLastD a = l.getLastD b := by
  cases l with
  | nil => exact absurd rfl h
  | cons x xs => rw [List.getLastD_cons, List.getLastD_cons]

theorem glue_cons_ne (p0 : List Char) (l ys : List (List Char)) (h : l ≠ []) :
    glue (p0 :: l) ys =
      p0 :: (l.dropLast ++ mapHead (fun y => l.getLastD [] ++ y) ys) := by
  induction l generalizing p0 with
  | nil => exact absurd rfl h
  | cons r l' ih =>
    cases l' with
    | nil =>
      rw [glue_cons p0 [r] ys (by simp), glue_single]
      simp [List.getLastD_cons]
    | cons q l'' =>
      rw [glue_cons p0 (r :: q :: l'') ys (by simp), ih r (by simp)]
      simp [List.dropLast_cons₂, List.getLastD_cons]

theorem readLoopStep_empty_chunk (delim buf : List Char) :
    readLoopStep delim buf [] = ([], buf) := rfl

theorem readLoopStep_single_piece (delim buf ch p : List Char)
    (hch : ch ≠ []) (hd : delim ≠ []) (hps : splitOnSep delim ch = [p]) :
    readLoopStep delim buf ch = ([], buf ++ ch) := by
  simp [readLoopStep, hch, hd, hps]

theorem readLoopStep_multi (delim buf ch p0 r1 : List Char)
    (rs : List (List Char)) (hch : ch ≠ []) (hd : delim ≠ [])
    (hps : splitOnSep delim ch = p0 :: r1 :: rs) :
    readLoopStep delim buf ch =
      ((buf ++ p0) :: (r1 :: rs).dropLast, (r1 :: rs).getLastD []) := by
  simp [readLoopStep, hch, hd, hps]

theorem runFrom_single_spec (c : Char) :
    ∀ (chunks : List (List Char)) (buf : List Char),
      (runFrom [c] buf chunks).1 ++ [(runFrom [c] buf chunks).2] =
        mapHead (fun y => buf ++ y) (splitOnSep [c] chunks.flatten) := by
  intro chunks
  induction chunks with
  | nil =>
    intro buf
    simp [runFrom, splitOnSep_nil, mapHead]
  | cons ch rest ih =>
    intro buf
    by_cases hch : ch = []
    · subst hch
      simp only [runFrom, readLoopStep_empty_chunk, List.nil_append]
      simpa [List.flatten] using ih buf
    · have hd : ([c] : List Char) ≠ [] := by simp
      cases hps : splitOnSep [c] ch with
      | nil => exact absurd hps (splitOnSep_ne_nil [c] ch)
      | cons p0 rest' =>
        cases rest' with
        | nil =>
          have hp0 : p0 = ch := splitOnSep_single_eq_single c ch p0 hps
          subst hp0
          simp only [runFrom, readLoopStep_single_piece [c] buf p0 p0 hch hd hps,
            List.nil_append]
          rw [ih (buf ++ p0), List.flatten_cons, splitOnSep_single_append,
            hps, glue_single, mapHead_mapHead]
          exact mapHead_congr _ _ _ (fun y => List.append_assoc buf p0 y)
        | cons r1 rs =>
          simp only [runFrom, readLoopStep_multi [c] buf ch p0 r1 rs hch hd hps]
          simp only [List.cons_append, List.append_assoc]
          rw [ih ((r1 :: rs).getLastD []),
            List.flatten_cons, splitOnSep_single_append, hps,
            glue_cons_ne p0 (r1 :: rs) _ (by simp)]
          simp [mapHead]

/-- The reassembler emits, for a single-character delimiter, exactly the
split of the concatenated input: all pieces but the last as records, the
last piece as the pending buffer. -/
theorem runReassembler_single (c : Char) (chunks : List (List Char)) :
    (runReassembler [c] chunks).1 ++ [(runReassembler [c] chunks).2] =
      splitOnSep [c] chunks.flatten := by
  rw [runReassembler, runFrom_single_spec]
  exact mapHead_id_append _

/-- C2 (amended): for a single-character delimiter, any two chunkings of the
same concatenated text produce the same emitted records in the same order
and the same pending buffer, namely the split of the concatenation. -/
theorem c2_reassembler_chunk_invariance (c : Char)
    (chunks1 chunks2 : List (List Char)) (h : chunks1.flatten = chunks2.flatten) :
    runReassembler [c] chunks1 = runReassembler [c] chunks2 ∧
      (runReassembler [c] chunks1).1 ++ [(runReassembler [c] chunks1).2] =
        splitOnSep [c] chunks1.flatten := by
  have h1 := runReassembler_single c chunks1
  have h2 := runReassembler_single c chunks2
  refine ⟨?_, h1⟩
  rw [h] at h1
  have heq := h1.trans h2.symm
  have hlen : ([(runReassembler [c] chunks1).2]).length =
      ([(runReassembler [c] chunks2).2]).length := by simp
  obtain ⟨ha, hb⟩ := List.append_inj' heq hlen
  have hb2 : (runReassembler [c] chunks1).2 = (runReassembler [c] chunks2).2 := by
    simpa using hb
  exact Prod.ext ha hb2

/-- Witness for `c2_reassembler_chunk_invariance` at the newline delimiter
the application configures and two chunkings of "a\nb". -/
theorem c2_reassembler_chunk_invariance_witness :
    runReassembler ['\n'] [['a', '\n', 'b']] =
        runReassembler ['\n'] [['a'], ['\n', 'b']] ∧
      (runReassembler ['\n'] [['a', '\n', 'b']]).1 ++
          [(runReassembler ['\n'] [['a', '\n', 'b']]).2] =
        splitOnSep ['\n'] ([['a', '\n', 'b']] : List (List Char)).flatten :=
  c2_reassembler_chunk_invariance '\n' [['a', '\n', 'b']] [['a'], ['\n', 'b']] rfl

/-- C2 counterexample: with the two-character delimiter "ab", the text
"xaby" delivered as one chunk emits the record "x" and retains "y", but
delivered as "xa" then "by" emits nothing and retains "xaby" — the
delimiter occurrence straddling the chunk boundary is never recognised,
because `readLoop` splits only the incoming chunk, not buffer plus chunk. -/
theorem c2_counterexample :
    ([['x', 'a', 'b', 'y']] : List (List Char)).flatten =
        ([['x', 'a'], ['b', 'y']] : List (List Char)).flatten ∧
      runReassembler ['a', 'b'] [['x', 'a', 'b', 'y']] ≠
        runReassembler ['a', 'b'] [['x', 'a'], ['b', 'y']] := by
  constructor
  · rfl
  · decide

/-! ## Throttle model (ahooks `useThrottleFn`, src/unnamed/part_001 lines 152-189)

Modelled from the ahooks/lodash dependency the page component uses:
`useThrottleFn(fn, { wait: CHART_UPDATE_INTERVAL })` wraps `fn` in
`lodash.throttle` with its default options `leading: true` and
`trailing: true` (`throttle` is `debounce` with `maxWait = wait`).  The
simulation below replays a finite schedule of calls (time, argument id) and
timer expirations, in time order, and returns the list of actual
invocations of the wrapped function, each with its time and the argument it
received.  Times are natural numbers of milliseconds. -/

/-- State of the lodash debounce/throttle machinery. -/
structure ThrottleState where
  lastCallTime : Option Nat
  lastInvokeTime : Nat
  timerAt : Option Nat
  lastArgs : Option Nat
  calls : List (Nat × Nat)
  invoked : List (Nat × Nat)

/-- lodash `shouldInvoke`: first call ever, or the wait elapsed since the
last call, or (maxing, which holds for throttle) the wait elapsed since the
last actual invocation. -/
def shouldInvoke (wait : Nat) (s : ThrottleState) (t : Nat) : Bool :=
  s.lastCallTime.isNone ||
    decide (wait ≤ t - s.lastCallTime.getD 0) ||
    decide (wait ≤ t - s.lastInvokeTime)

/-- Handle one call of the throttled function (lodash `debounced`): record
the args and call time; on the leading edge invoke immediately and start
the timer; within a window with a live timer (maxing) restart the timer and
invoke; otherwise just make sure a timer is pending. -/
def throttleCall (wait : Nat) (s : ThrottleState) (t a : Nat) : ThrottleState :=
  let isInv := shouldInvoke wait s t
  let s1 : ThrottleState :=
    { s with lastArgs := some a, lastCallTime := some t, calls := s.calls.tail }
  if isInv then
    if s1.timerAt.isNone then
      { s1 with
        lastInvokeTime := t
        timerAt := some (t + wait)
        invoked := s1.invoked ++ [(t, a)]
        lastArgs := none }
    else
      { s1 with
        timerAt := some (t + wait)
        lastInvokeTime := t
        invoked := s1.invoked ++ [(t, a)]
        lastArgs := none }
  else
    if s1.timerAt.isNone then { s1 with timerAt := some (t + wait) } else s1

/-- Handle a timer expiration (lodash `timerExpired`/`trailingEdge`): if the
window has elapsed, fire the trailing call with the stored latest args (if
any); otherwise re-arm the timer for the remaining wait. -/
def throttleTimer (wait : Nat) (s : ThrottleState) (t : Nat) : ThrottleState :=
  if shouldInvoke wait s t then
    let s1 : ThrottleState := { s with timerAt := none }
    match s1.lastArgs with
    | some a =>
      { s1 with
        invoked := s1.invoked ++ [(t, a)]
        lastInvokeTime := t
        lastArgs := none }
    | none => s1
  else
    { s with timerAt := some (t + min (wait - (t - s.lastCallTime.getD 0))
        (wait - (t - s.lastInvokeTime))) }

/-- Replay the event queue: at each step handle whichever of the pending
timer and the next scheduled call comes first.  The fuel bounds the number
of events processed; every concrete schedule in this file terminates well
within it. -/
def throttleRun (wait : Nat) : Nat → ThrottleState → List (Nat × Nat)
  | 0, s => s.invoked
  | fuel + 1, s =>
    match s.timerAt, s.calls with
    | some tt, (ct, a) :: _ =>
      if tt ≤ ct then throttleRun wait fuel (throttleTimer wait s tt)
      else throttleRun wait fuel (throttleCall wait s ct a)
    | some tt, [] => throttleRun wait fuel (throttleTimer wait s tt)
    | none, (ct, a) :: _ => throttleRun wait fuel (throttleCall wait s ct a)
    | none, [] => s.invoked

/-- Simulate the lodash throttle on a schedule of calls `(time, argId)`,
returning the actual invocations `(time, argId)` in order. -/
def throttleSim (wait : Nat) (calls : List (Nat × Nat)) : List (Nat × Nat) :=
  throttleRun wait (4 * calls.length + 8)
    { lastCallTime := none, lastInvokeTime := 0, timerAt := none,
      lastArgs := none, calls := calls, invoked := [] }

/-! ## Record parser (the `JSON.parse` builtin as used by the page component)

Modelled from the JavaScript `JSON.parse` builtin on the flat record forms
this application exchanges: a top-level object literal whose values are
numbers, strings, booleans or null, or a bare primitive.  JSON numbers are
parsed exactly as rationals (optional minus sign, integer part, optional
fraction; exponents and nested structures are outside every record shape
the claims evaluate and make the parser fail).  String escapes are not
interpreted (no claim input contains them).  Duplicate keys keep the first
occurrence (every claim input has distinct keys). -/

/-- JSON values, restricted to the flat shapes described above. -/
inductive Json where
  | null : Json
  | bool (b : Bool) : Json
  | num (q : ℚ) : Json
  | str (s : String) : Json
  | obj (fields : List (String × Json)) : Json

/-- Skip JSON whitespace. -/
def skipWs : List Char → List Char
  | [] => []
  | c :: cs =>
    if c = ' ' ∨ c = '\t' ∨ c = '\n' ∨ c = '\r' then skipWs cs else c :: cs

/-- Parse the body of a double-quoted string (no escapes), returning the
contents and the remainder after the closing quote. -/
def parseStrBody : List Char → Option (List Char × List Char)
  | [] => none
  | c :: cs =>
    if c = '"' then some ([], cs)
    else if c = '\\' then none
    else (parseStrBody cs).map (fun r => (c :: r.1, r.2))

/-- Digit run to a natural number. -/
def digitsToNat (ds : List Char) : Nat :=
  ds.foldl (fun a c => 10 * a + (c.toNat - '0'.toNat)) 0

/-- Parse a JSON number: optional minus, digits, optional fraction. -/
def parseNumber (s : List Char) : Option (ℚ × List Char) :=
  let signed : Bool × List Char := match s with
    | '-' :: rest => (true, rest)
    | _ => (false, s)
  let ds : List Char × List Char := signed.2.span (·.isDigit)
  if ds.1 = [] then none
  else
    let intPart : ℚ := (digitsToNat ds.1 : ℚ)
    match ds.2 with
    | '.' :: s3 =>
      let fs : List Char × List Char := s3.span (·.isDigit)
      if fs.1 = [] then none
      else
        let q : ℚ := intPart + (digitsToNat fs.1 : ℚ) / ((10 : ℚ) ^ fs.1.length)
        some (if signed.1 then -q else q, fs.2)
    | _ => some (if signed.1 then -intPart else intPart, ds.2)

/-- Parse a primitive JSON value: string, boolean, null or number. -/
def parsePrim (s : List Char) : Option (Json × List Char) :=
  match s with
  | '"' :: rest => (parseStrBody rest).map (fun r => (Json.str (String.mk r.1), r.2))
  | 't' :: 'r' :: 'u' :: 'e' :: r => some (Json.bool true, r)
  | 'f' :: 'a' :: 'l' :: 's' :: 'e' :: r => some (Json.bool false, r)
  | 'n' :: 'u' :: 'l' :: 'l' :: r => some (Json.null, r)
  | _ => (parseNumber s).map (fun r => (Json.num r.1, r.2))

/-- Parse the fields of an object after the opening brace (first field
expected next): `"key" : value` pairs separated by commas, ending at the
closing brace.  The fuel decreases on each recursive call; the top-level
wrapper passes the input length, which is always enough because each field
consumes at least one character. -/
def parseFields : Nat → List Char → Option (List (String × Json) × List Char)
  | 0, _ => none
  | fuel + 1, s =>
    match s with
    | '"' :: rest =>
      match parseStrBody rest with
      | none => none
      | some (k, r1) =>
        match skipWs r1 with
        | ':' :: r2 =>
          match parsePrim (skipWs r2) with
          | none => none
          | some (v, r3) =>
            match skipWs r3 with
            | ',' :: r4 =>
              match parseFields fuel (skipWs r4) with
              | some (fs, r5) => some ((String.mk k, v) :: fs, r5)
              | none => none
            | '}' :: r4 => some ([(String.mk k, v)], r4)
            | _ => none
        | _ => none
    | _ => none

/-- `JSON.parse` on a character list: a full-input parse of an object
literal or a bare primitive, with surrounding whitespace allowed. -/
def parseJsonChars (s : List Char) : Option Json :=
  match skipWs s with
  | '{' :: rest =>
    match skipWs rest with
    | '}' :: r2 => if skipWs r2 = [] then some (Json.obj []) else none
    | r1 =>
      match parseFields s.length r1 with
      | some (fs, r2) => if skipWs r2 = [] then some (Json.obj fs) else none
      | none => none
  | _ =>
    match parsePrim (skipWs s) with
    | some (v, r) => if skipWs r = [] then some v else none
    | none => none

/-- `JSON.parse` on strings. -/
def parseJson (s : String) : Option Json :=
  parseJsonChars s.data

/-- `Object.keys` of a parsed record: field names of an object in textual
order; primitives have no keys.  (`Object.keys` of a top-level string would
enumerate character indices in JavaScript; no record of the claims parses
to a bare string, and the pipeline model treats `null` separately because
`Object.keys(null)` throws.) -/
def Json.keysList : Json → List String
  | Json.obj fields => fields.map Prod.fst
  | _ => []

/-- Property access `dataObject[key]`: `some` value for a present object
field, `none` (JavaScript `undefined`) otherwise. -/
def jsGet (j : Json) (k : String) : Option Json :=
  match j with
  | Json.obj fields => (fields.find? (fun p => p.1 == k)).map Prod.snd
  | _ => none

/-- The channel names a record contributes: the keys of a successfully
parsed object record, `[]` for an unparsable or non-object record. -/
def recKeys (v : String) : List String :=
  match parseJson v with
  | some (Json.obj fields) => fields.map Prod.fst
  | _ => []

/-! ## Session state and ingestion pipeline (src/unnamed/part_001) -/

/-- JavaScript numbers as the statistics path can produce them: exact
rationals extended with NaN and the signed infinities. -/
inductive JVal where
  | num (q : ℚ) : JVal
  | nan : JVal
  | inf : JVal
  | ninf : JVal
deriving DecidableEq

/-- The mutable state of the page component that the ingestion pipeline
touches: `serialData` (the raw record log), `series` (the channel registry:
the name at position `i` has index `i`, matching the `Map` that assigns
`series.size` as the index of each new name), `chartData` (per-series data
points `{x, y}` in registry order), `stats` (the statistics table state),
the connection status, and a count of parse-error diagnostics logged. -/
structure Session where
  serialData : List String
  series : List String
  chartData : List (String × List (Nat × Json))
  stats : List (String × JVal × JVal)
  statusConnected : Bool
  diagnostics : Nat

/-- The state before any data arrives. -/
def emptySession : Session :=
  { serialData := [], series := [], chartData := [], stats := [],
    statusConnected := true, diagnostics := 0 }

/-- Append a data point to the series at the given registry index
(`chartData[seriesIndex].data.push({x, y})`). -/
def pushPoint : List (String × List (Nat × Json)) → Nat → Nat × Json →
    List (String × List (Nat × Json))
  | [], _, _ => []
  | (nm, data) :: rest, 0, p => (nm, data ++ [p]) :: rest
  | x :: rest, n + 1, p => x :: pushPoint rest n p

/-- The body of the `Object.keys(data).forEach` loop in `updateChartData`
(src/unnamed/part_001 lines 157-175) for one key: register the key if it is
new (appending a fresh series to the registry and the chart data), then
push the record's value for that key at the current sample index. -/
def pushKey (index : Nat) (j : Json) (st : Session) (k : String) : Session :=
  let st1 :=
    if k ∈ st.series then st
    else { st with
      series := st.series ++ [k]
      chartData := st.chartData ++ [(k, [])] }
  let i := st1.series.indexOf k
  match jsGet j k with
  | some v => { st1 with chartData := pushPoint st1.chartData i (index, v) }
  | none => st1

/-- The inner function wrapped by `useThrottleFn` (src/unnamed/part_001
lines 152-189): parse the record; on success iterate over its keys,
registering new channels and appending points; on parse failure log a
diagnostic and leave all other state untouched (the `catch` block).  A
record parsing to JSON `null` also lands in the `catch` block, because
`Object.keys(null)` throws a TypeError.  The chart-widget side effects
(`window.ApexCharts.exec`) touch no modelled state. -/
def updateChartDataCore (value : String) (index : Nat) (st : Session) : Session :=
  match parseJson value with
  | none => { st with diagnostics := st.diagnostics + 1 }
  | some Json.null => { st with diagnostics := st.diagnostics + 1 }
  | some j => (Json.keysList j).foldl (pushKey index j) st

/-- `options.onRead` (src/unnamed/part_001 lines 191-197): push the record
onto the raw log unconditionally, then request the throttled chart update
with the record and its sample index (`serialData.current.length - 1`).
The `invoke` flag says whether the throttle actually runs the wrapped
function for this request; the push happens either way. -/
def onReadStep (st : Session) (value : String) (invoke : Bool) : Session :=
  let st1 := { st with serialData := st.serialData ++ [value] }
  if invoke then updateChartDataCore value (st1.serialData.length - 1) st1 else st1

/-- Deliver a sequence of records through `onRead`, each tagged with
whether the throttled update ran for it. -/
def runPipeline (st : Session) : List (String × Bool) → Session
  | [] => st
  | (v, b) :: rest => runPipeline (onReadStep st v b) rest

/-- The pipeline under the real throttle: records arrive at the given
times; the lodash throttle schedule (`throttleSim`) decides which update
requests actually invoke the wrapped function, each invocation receiving
the record and index frozen into its arguments.  The wrapped function
reads and writes only `series`, `chartData` and `diagnostics` — never
`serialData` — so folding the invoked calls in invocation order over the
fully pushed log reproduces the interleaved execution. -/
def runThrottled (wait : Nat) (arrivals : List (Nat × String)) : Session :=
  let records := arrivals.map Prod.snd
  let calls := (List.range arrivals.length).map
    (fun i => ((arrivals.getD i (0, "")).1, i))
  let inv := throttleSim wait calls
  let st0 := { emptySession with serialData := records }
  inv.foldl (fun st p => updateChartDataCore (records.getD p.2 "") p.2 st) st0

/-- First-appearance deduplication: fold the keys into an accumulator,
appending each key not already present.  This is the specification-side
description of the channel registry. -/
def insertNew (a : List String) (k : String) : List String :=
  if k ∈ a then a else a ++ [k]

/-- Fold `insertNew` over a list of keys, starting from `acc`. -/
def dedupFrom (acc : List String) (l : List String) : List String :=
  l.foldl insertNew acc

/-- The keys contributed by the records whose throttled update actually
ran, in delivery order. -/
def processedKeys (evs : List (String × Bool)) : List String :=
  ((evs.filter (fun e => e.2)).map (fun e => recKeys e.1)).flatten

theorem pushKey_serialData (i : Nat) (j : Json) (st : Session) (k : String) :
    (pushKey i j st k).serialData = st.serialData := by
  by_cases hm : k ∈ st.series <;> cases hget : jsGet j k <;>
    simp [pushKey, hm, hget]

theorem foldl_pushKey_serialData (i : Nat) (j : Json) :
    ∀ (ks : List String) (st : Session),
      (ks.foldl (pushKey i j) st).serialData = st.serialData := by
  intro ks
  induction ks with
  | nil => intro st; rfl
  | cons k ks ih =>
    intro st
    rw [List.foldl_cons, ih, pushKey_serialData]

theorem updateChartDataCore_serialData (v : String) (i : Nat) (st : Session) :
    (updateChartDataCore v i st).serialData = st.serialData := by
  unfold updateChartDataCore
  cases hp : parseJson v with
  | none => rfl
  | some j => cases j <;> simp [foldl_pushKey_serialData]

theorem pushKey_series (i : Nat) (j : Json) (st : Session) (k : String) :
    (pushKey i j st k).series = insertNew st.series k := by
  by_cases hm : k ∈ st.series <;> cases hget : jsGet j k <;>
    simp [pushKey, insertNew, hm, hget]

theorem foldl_pushKey_series (i : Nat) (j : Json) :
    ∀ (ks : List String) (st : Session),
      (ks.foldl (pushKey i j) st).series = dedupFrom st.series ks := by
  intro ks
  induction ks with
  | nil => intro st; rfl
  | cons k ks ih =>
    intro st
    rw [List.foldl_cons, ih, pushKey_series]
    rfl

theorem updateChartDataCore_series (v : String) (i : Nat) (st : Session) :
    (updateChartDataCore v i st).series = dedupFrom st.series (recKeys v) := by
  unfold updateChartDataCore
  cases hp : parseJson v with
  | none => simp [recKeys, hp, dedupFrom]
  | some j =>
    cases j <;>
      simp [recKeys, hp, dedupFrom, Json.keysList, foldl_pushKey_series]

theorem dedupFrom_append (acc : List String) (l1 l2 : List String) :
    dedupFrom (dedupFrom acc l1) l2 = dedupFrom acc (l1 ++ l2) := by
  simp [dedupFrom, List.foldl_append]

theorem processedKeys_cons_true (v : String) (evs : List (String × Bool)) :
    processedKeys ((v, true) :: evs) = recKeys v ++ processedKeys evs := by
  simp [processedKeys]

theorem processedKeys_cons_false (v : String) (evs : List (String × Bool)) :
    processedKeys ((v, false) :: evs) = processedKeys evs := by
  simp [processedKeys]

theorem runPipeline_series :
    ∀ (evs : List (String × Bool)) (st : Session),
      (runPipeline st evs).series = dedupFrom st.series (processedKeys evs) := by
  intro evs
  induction evs with
  | nil => intro st; simp [runPipeline, processedKeys, dedupFrom]
  | cons ev rest ih =>
    intro st
    obtain ⟨v, b⟩ := ev
    cases b with
    | true =>
      rw [runPipeline, ih, processedKeys_cons_true, ← dedupFrom_append]
      congr 1
      show (updateChartDataCore v _ _).series = _
      rw [updateChartDataCore_series]
    | false =>
      rw [runPipeline, ih, processedKeys_cons_false]
      rfl

theorem mem_insertNew (a : List String) (k q : String) :
    q ∈ insertNew a k ↔ q ∈ a ∨ q = k := by
  by_cases hm : k ∈ a
  · simp only [insertNew, if_pos hm]
    constructor
    · exact fun h => Or.inl h
    · rintro (h | h)
      · exact h
      · exact h ▸ hm
  · simp [insertNew, if_neg hm]

theorem mem_dedupFrom :
    ∀ (l acc : List String) (q : String),
      q ∈ dedupFrom acc l ↔ q ∈ acc ∨ q ∈ l := by
  intro l
  induction l with
  | nil => intro acc q; simp [dedupFrom]
  | cons k l ih =>
    intro acc q
    show q ∈ dedupFrom (insertNew acc k) l ↔ _
    rw [ih, mem_insertNew]
    simp [or_assoc, or_comm, or_left_comm]

/-- C1 (amended): the channel registry after any run of the pipeline is
exactly the first-appearance deduplication of the keys of the records whose
throttled update actually ran, in that order (position in `series` is the
assigned index); a key is registered iff it appears in some processed
record.  Keys of records whose update request was coalesced away by the
throttle are not registered. -/
theorem c1_registry_first_appearance (evs : List (String × Bool)) :
    (runPipeline emptySession evs).series = dedupFrom [] (processedKeys evs) ∧
      ∀ k, k ∈ (runPipeline emptySession evs).series ↔ k ∈ processedKeys evs := by
  constructor
  · exact runPipeline_series evs emptySession
  · intro k
    rw [runPipeline_series evs emptySession]
    show k ∈ dedupFrom [] (processedKeys evs) ↔ _
    rw [mem_dedupFrom]
    simp

/-- C1 counterexample: three valid JSON-object records with keys x, y, z
arriving 10 ms apart under the 250 ms throttle.  The leading edge processes
the first record and the trailing edge the third (latest arguments), so the
middle record is never parsed: the registry is ["x", "z"], not the full
distinct-key set — registration is not independent of the throttled
callback. -/
theorem c1_counterexample :
    recKeys "\x7b\x22y\x22:2\x7d" = ["y"] ∧
      (runThrottled 250
        [(0, "\x7b\x22x\x22:1\x7d"), (10, "\x7b\x22y\x22:2\x7d"), (20, "\x7b\x22z\x22:3\x7d")]).series =
        ["x", "z"] ∧
      ¬ "y" ∈ (runThrottled 250
        [(0, "\x7b\x22x\x22:1\x7d"), (10, "\x7b\x22y\x22:2\x7d"), (20, "\x7b\x22z\x22:3\x7d")]).series := by
  refine ⟨by decide, by decide, by decide⟩

/-- C3: every delivered record is appended to the raw record log,
synchronously and unconditionally, whatever subset of the throttled update
requests actually runs — only the chart notification is rate limited, never
the data capture. -/
theorem c3_log_never_skips (st : Session) (evs : List (String × Bool)) :
    (runPipeline st evs).serialData = st.serialData ++ evs.map Prod.fst := by
  induction evs generalizing st with
  | nil => simp [runPipeline]
  | cons ev rest ih =>
    obtain ⟨v, b⟩ := ev
    rw [runPipeline, ih]
    cases b with
    | true =>
      show (updateChartDataCore v _ _).serialData ++ _ = _
      rw [updateChartDataCore_serialData]
      simp
    | false => simp [onReadStep]

/-- C8 (amended): a record that fails to parse only increments the
diagnostic count, leaving the log, registry, chart data, statistics and
status untouched, so processing continues with the next record; and when
the throttled update runs for every record, feeding {"x":1}, `not json`,
{"y":2} yields a log of length 3, the registry ["x", "y"], and exactly one
diagnostic.  (Under rapid arrival the malformed record's update request can
be coalesced away, and then no diagnostic is emitted — see the
counterexample.) -/
theorem c8_malformed_record_tolerance (st : Session) (v : String) (i : Nat)
    (h : parseJson v = none) :
    updateChartDataCore v i st = { st with diagnostics := st.diagnostics + 1 } ∧
      (runPipeline emptySession
        [("\x7b\x22x\x22:1\x7d", true), ("not json", true), ("\x7b\x22y\x22:2\x7d", true)]).serialData.length = 3 ∧
      (runPipeline emptySession
        [("\x7b\x22x\x22:1\x7d", true), ("not json", true), ("\x7b\x22y\x22:2\x7d", true)]).series = ["x", "y"] ∧
      (runPipeline emptySession
        [("\x7b\x22x\x22:1\x7d", true), ("not json", true), ("\x7b\x22y\x22:2\x7d", true)]).diagnostics = 1 := by
    refine ⟨?_, by decide, by decide, by decide⟩
    unfold updateChartDataCore
    rw [h]

/-- Witness for `c8_malformed_record_tolerance` at the malformed middle
record. -/
theorem c8_malformed_record_tolerance_witness :
    updateChartDataCore "not json" 1 emptySession =
      { emptySession with diagnostics := emptySession.diagnostics + 1 } ∧
      (runPipeline emptySession
        [("\x7b\x22x\x22:1\x7d", true), ("not json", true), ("\x7b\x22y\x22:2\x7d", true)]).serialData.length = 3 ∧
      (runPipeline emptySession
        [("\x7b\x22x\x22:1\x7d", true), ("not json", true), ("\x7b\x22y\x22:2\x7d", true)]).series = ["x", "y"] ∧
      (runPipeline emptySession
        [("\x7b\x22x\x22:1\x7d", true), ("not json", true), ("\x7b\x22y\x22:2\x7d", true)]).diagnostics = 1 :=
  c8_malformed_record_tolerance emptySession "not json" 1 rfl

/-- C8 counterexample: the same three records arriving 10 ms apart under
the 250 ms throttle.  The log still has all three records and the registry
is ["x", "y"] (records one and three are processed on the leading and
trailing edges), but the malformed middle record is never parsed, so no
diagnostic at all is emitted — not the single diagnostic the claim
asserts. -/
theorem c8_counterexample :
    (runThrottled 250
      [(0, "\x7b\x22x\x22:1\x7d"), (10, "not json"), (20, "\x7b\x22y\x22:2\x7d")]).diagnostics = 0 ∧
      (runThrottled 250
        [(0, "\x7b\x22x\x22:1\x7d"), (10, "not json"), (20, "\x7b\x22y\x22:2\x7d")]).serialData.length = 3 ∧
      (runThrottled 250
        [(0, "\x7b\x22x\x22:1\x7d"), (10, "not json"), (20, "\x7b\x22y\x22:2\x7d")]).series = ["x", "y"] := by
  refine ⟨by decide, by decide, by decide⟩

/-! ## Recompute, disconnect, clear, connect (src/unnamed/part_001) -/

/-- The full-resolution replay of `handleDisconnect` (src/unnamed/part_001
lines 268-295): build one empty series per registry entry in index order
(`Array.from(series.entries()).sort((e1, e2) => e1[1] - e2[1])` is the
registry in index order, which is insertion order in this model), then walk
the raw record log from index 0, re-parsing every record and pushing the
value of each registered key that is present.  A record that fails to parse
is skipped (its `catch` block); a record parsing to JSON `null` is likewise
skipped, because the first property access throws into the same `catch`. -/
def recomputeHighRes (series : List String) (log : List String) :
    List (String × List (Nat × Json)) :=
  let init : List (String × List (Nat × Json)) := series.map (fun nm => (nm, []))
  (List.range log.length).foldl
    (fun hr i =>
      match parseJson (log.getD i "") with
      | none => hr
      | some Json.null => hr
      | some j =>
        (List.range series.length).foldl
          (fun hr2 si =>
            match jsGet j (series.getD si "") with
            | some v => pushPoint hr2 si (i, v)
            | none => hr2)
          hr)
    init

/-- `handleDisconnect` (src/unnamed/part_001 lines 258-303): a no-op when
already disconnected; otherwise disconnect and replace the chart data with
the full-resolution recompute of the raw record log, unconditionally — the
flush does not consult the throttle timer. -/
def handleDisconnectCore (st : Session) : Session :=
  if st.statusConnected = false then st
  else
    { st with
      statusConnected := false
      chartData := recomputeHighRes st.series st.serialData }

/-- `handleClear` (src/unnamed/part_001 lines 305-318): reset the raw
record log, the chart data, the channel registry and the statistics
table. -/
def handleClearCore (st : Session) : Session :=
  { st with serialData := [], chartData := [], series := [], stats := [] }

/-- `handleConnect` (src/unnamed/part_001 lines 235-256), successful path:
a no-op when already connected; otherwise connect and, if any prior session
data exists, clear it all. -/
def handleConnectCore (st : Session) : Session :=
  if st.statusConnected then st
  else
    let st1 := { st with statusConnected := true }
    if st1.serialData.length > 0 then handleClearCore st1 else st1

/-- C9: the disconnect recompute is deterministic and idempotent — the
snapshot it installs is a function of the raw record log and the registry
alone (two sessions differing only in the chart data, statistics or
diagnostic count built by the throttled live path get identical
snapshots), it replays the log with registry ordering via
`recomputeHighRes`, it leaves the log and registry untouched, and running
disconnect a second time yields the same snapshot. -/
theorem c9_recompute_deterministic_idempotent
    (log series : List String)
    (cd1 cd2 : List (String × List (Nat × Json)))
    (s1 s2 : List (String × JVal × JVal)) (d1 d2 : Nat) (st : Session) :
    (handleDisconnectCore
        ⟨log, series, cd1, s1, true, d1⟩).chartData =
      (handleDisconnectCore ⟨log, series, cd2, s2, true, d2⟩).chartData ∧
    (handleDisconnectCore ⟨log, series, cd1, s1, true, d1⟩).chartData =
      recomputeHighRes series log ∧
    (handleDisconnectCore st).serialData = st.serialData ∧
    (handleDisconnectCore st).series = st.series ∧
    (handleDisconnectCore (handleDisconnectCore st)).chartData =
      (handleDisconnectCore st).chartData := by
  refine ⟨rfl, rfl, ?_, ?_, ?_⟩
  · unfold handleDisconnectCore
    cases hs : st.statusConnected <;> simp [hs]
  · unfold handleDisconnectCore
    cases hs : st.statusConnected <;> simp [hs]
  · unfold handleDisconnectCore
    cases hs : st.statusConnected <;> simp [hs]

/-- C4 (amended): with a 250 ms interval and update requests at t = 0, 10,
50 and 260, the lodash throttle used by the page performs exactly three
actual calls, not two: a leading call at t = 0 with the t = 0 arguments, a
trailing call at t = 250 with the latest (t = 50) arguments, and a trailing
call at t = 510 with the t = 260 arguments.  A forced disconnect at t = 300
— between the second and third calls, while a throttle window is pending —
still publishes the full-resolution state: the flush is unconditional and
independent of the throttle timer. -/
theorem c4_throttle_coalescing_and_flush (st : Session)
    (h : st.statusConnected = true) :
    throttleSim 250 [(0, 0), (10, 1), (50, 2), (260, 3)] =
        [(0, 0), (250, 2), (510, 3)] ∧
      (handleDisconnectCore st).chartData =
        recomputeHighRes st.series st.serialData := by
  constructor
  · decide
  · unfold handleDisconnectCore
    rw [h]
    simp

/-- Witness for `c4_throttle_coalescing_and_flush` at a concrete session. -/
theorem c4_throttle_coalescing_and_flush_witness :
    throttleSim 250 [(0, 0), (10, 1), (50, 2), (260, 3)] =
        [(0, 0), (250, 2), (510, 3)] ∧
      (handleDisconnectCore emptySession).chartData =
        recomputeHighRes emptySession.series emptySession.serialData :=
  c4_throttle_coalescing_and_flush emptySession rfl

/-- C4 counterexample: the claimed schedule asserts exactly two actual
publish calls for requests at t = 0, 10, 50, 260 with a 250 ms interval;
the lodash throttle that `useThrottleFn` wraps (leading edge enabled by
default) performs three. -/
theorem c4_counterexample :
    (throttleSim 250 [(0, 0), (10, 1), (50, 2), (260, 3)]).length = 3 := by
  decide

/-- C10: a successful connect on a disconnected session with prior data
clears the whole previous session state: raw record log, channel registry,
chart data and statistics are all reset, and the session comes up
connected — data is never carried across connections. -/
theorem c10_connect_clears_previous_session (st : Session)
    (hdis : st.statusConnected = false) (hdata : st.serialData ≠ []) :
    (handleConnectCore st).serialData = [] ∧
      (handleConnectCore st).series = [] ∧
      (handleConnectCore st).chartData = [] ∧
      (handleConnectCore st).stats = [] ∧
      (handleConnectCore st).statusConnected = true := by
  have hlen : 0 < st.serialData.length := List.length_pos.mpr hdata
  unfold handleConnectCore
  rw [hdis]
  simp only [Bool.false_eq_true, if_false]
  rw [if_pos hlen]
  exact ⟨rfl, rfl, rfl, rfl, rfl⟩

/-- Witness for `c10_connect_clears_previous_session` at a concrete
disconnected session holding one record. -/
theorem c10_connect_clears_previous_session_witness :
    (handleConnectCore
        ⟨["\x7b\x22x\x22:1\x7d"], ["x"], [("x", [(0, Json.num 1)])], [], false, 0⟩).serialData = [] ∧
      (handleConnectCore
        ⟨["\x7b\x22x\x22:1\x7d"], ["x"], [("x", [(0, Json.num 1)])], [], false, 0⟩).series = [] ∧
      (handleConnectCore
        ⟨["\x7b\x22x\x22:1\x7d"], ["x"], [("x", [(0, Json.num 1)])], [], false, 0⟩).chartData = [] ∧
      (handleConnectCore
        ⟨["\x7b\x22x\x22:1\x7d"], ["x"], [("x", [(0, Json.num 1)])], [], false, 0⟩).stats = [] ∧
      (handleConnectCore
        ⟨["\x7b\x22x\x22:1\x7d"], ["x"], [("x", [(0, Json.num 1)])], [], false, 0⟩).statusConnected = true :=
  c10_connect_clears_previous_session _ rfl (by simp)

/-! ## Statistics (`calculateStatistics`, src/unnamed/part_001 lines 356-382,
and the RSD computed in the statistics table render, lines 519-531)

Arithmetic follows the IEEE rules for the special values NaN and the
infinities with exact rational arithmetic for finite values (the claims
evaluate only computations that are exact in binary floating point).
`Math.sqrt` is modelled exactly on perfect squares of rationals, the only
finite values any claim applies it to; negative arguments give NaN and NaN
propagates, as in JavaScript. -/

/-- JavaScript addition on the extended values. -/
def jadd : JVal → JVal → JVal
  | JVal.num a, JVal.num b => JVal.num (a + b)
  | JVal.nan, _ => JVal.nan
  | _, JVal.nan => JVal.nan
  | JVal.inf, JVal.ninf => JVal.nan
  | JVal.ninf, JVal.inf => JVal.nan
  | JVal.inf, _ => JVal.inf
  | _, JVal.inf => JVal.inf
  | JVal.ninf, _ => JVal.ninf
  | _, JVal.ninf => JVal.ninf

/-- JavaScript subtraction on the extended values. -/
def jsub : JVal → JVal → JVal
  | JVal.num a, JVal.num b => JVal.num (a - b)
  | JVal.nan, _ => JVal.nan
  | _, JVal.nan => JVal.nan
  | JVal.inf, JVal.inf => JVal.nan
  | JVal.ninf, JVal.ninf => JVal.nan
  | JVal.inf, _ => JVal.inf
  | _, JVal.inf => JVal.ninf
  | JVal.ninf, _ => JVal.ninf
  | _, JVal.ninf => JVal.inf

/-- JavaScript multiplication on the extended values (zero times an
infinity is NaN). -/
def jmul : JVal → JVal → JVal
  | JVal.num a, JVal.num b => JVal.num (a * b)
  | JVal.nan, _ => JVal.nan
  | _, JVal.nan => JVal.nan
  | JVal.inf, JVal.inf => JVal.inf
  | JVal.inf, JVal.ninf => JVal.ninf
  | JVal.ninf, JVal.inf => JVal.ninf
  | JVal.ninf, JVal.ninf => JVal.inf
  | JVal.inf, JVal.num b =>
    if b = 0 then JVal.nan else if 0 < b then JVal.inf else JVal.ninf
  | JVal.num a, JVal.inf =>
    if a = 0 then JVal.nan else if 0 < a then JVal.inf else JVal.ninf
  | JVal.ninf, JVal.num b =>
    if b = 0 then JVal.nan else if 0 < b then JVal.ninf else JVal.inf
  | JVal.num a, JVal.ninf =>
    if a = 0 then JVal.nan else if 0 < a then JVal.ninf else JVal.inf

/-- JavaScript division on the extended values: `0/0` is NaN and a nonzero
finite value over zero is a signed infinity (treating zero as `+0`, the
only zero the pipeline produces). -/
def jdiv : JVal → JVal → JVal
  | JVal.num a, JVal.num b =>
    if b = 0 then
      if a = 0 then JVal.nan else if 0 < a then JVal.inf else JVal.ninf
    else JVal.num (a / b)
  | JVal.nan, _ => JVal.nan
  | _, JVal.nan => JVal.nan
  | JVal.inf, JVal.inf => JVal.nan
  | JVal.inf, JVal.ninf => JVal.nan
  | JVal.ninf, JVal.inf => JVal.nan
  | JVal.ninf, JVal.ninf => JVal.nan
  | JVal.num _, JVal.inf => JVal.num 0
  | JVal.num _, JVal.ninf => JVal.num 0
  | JVal.inf, JVal.num b => if 0 ≤ b then JVal.inf else JVal.ninf
  | JVal.ninf, JVal.num b => if 0 ≤ b then JVal.ninf else JVal.inf

/-- `Math.pow(x, 2)` as used on `y - mean`. -/
def jpow2 (x : JVal) : JVal := jmul x x

/-- Largest `k ≤ bound` with `k * k ≤ n`, by downward scan — a structurally
recursive floor square root on naturals (`natSqrt` passes `n` itself as the
bound, which always suffices). -/
def natSqrtAux (n : Nat) : Nat → Nat
  | 0 => 0
  | k + 1 => if (k + 1) * (k + 1) ≤ n then k + 1 else natSqrtAux n k

/-- Floor square root on naturals. -/
def natSqrt (n : Nat) : Nat := natSqrtAux n n

/-- Rational square root, exact on perfect squares (numerator and
denominator squares in lowest terms), which are the only finite values the
claims take square roots of. -/
def ratSqrt (q : ℚ) : ℚ :=
  (natSqrt q.num.toNat : ℚ) / (natSqrt q.den : ℚ)

/-- `Math.sqrt` on the extended values. -/
def jsqrt : JVal → JVal
  | JVal.num a => if a < 0 then JVal.nan else JVal.num (ratSqrt a)
  | JVal.nan => JVal.nan
  | JVal.inf => JVal.inf
  | JVal.ninf => JVal.nan

/-- Coercion applied implicitly by JavaScript arithmetic to a channel value
(`acc + y / numSamples`): numbers stay themselves, booleans and null
coerce to 0 or 1, anything else the pipeline can store here is treated as
NaN.  (Numeric strings would coerce to their value in JavaScript; no claim
stores strings in a channel.) -/
def jnumOf : Json → JVal
  | Json.num q => JVal.num q
  | Json.bool true => JVal.num 1
  | Json.bool false => JVal.num 0
  | Json.null => JVal.num 0
  | Json.str _ => JVal.nan
  | Json.obj _ => JVal.nan

/-- The mean fold of `calculateStatistics`:
`seriesData.data.reduce((acc, {y}) => acc + y / numSamples, 0)`. -/
def jsMean (ys : List JVal) (n : ℚ) : JVal :=
  ys.foldl (fun acc y => jadd acc (jdiv y (JVal.num n))) (JVal.num 0)

/-- The radicand of the standard deviation of `calculateStatistics`:
`data.reduce((acc, {y}) => acc + Math.pow(y - mean, 2), 0) / numSamples`. -/
def jsVarNum (ys : List JVal) (m : JVal) (n : ℚ) : JVal :=
  jdiv (ys.foldl (fun acc y => jadd acc (jpow2 (jsub y m))) (JVal.num 0))
    (JVal.num n)

/-- `Math.sqrt` of the variance: the standard deviation of
`calculateStatistics`. -/
def jsStdev (ys : List JVal) (n : ℚ) : JVal :=
  jsqrt (jsVarNum ys (jsMean ys n) n)

/-- The relative standard deviation computed in the statistics table render
(src/unnamed/part_001 line 521): `(stdev / mean) * 100`. -/
def jsRsd (stdev mean : JVal) : JVal :=
  jmul (jdiv stdev mean) (JVal.num 100)

/-- `calculateStatistics` (src/unnamed/part_001 lines 356-382): for each
chart series, in registry order, the mean and population standard
deviation over that series' own data points; the display name comes from
the registry entry at the same index. -/
def calculateStatisticsCore (series : List String)
    (chartData : List (String × List (Nat × Json))) :
    List (String × JVal × JVal) :=
  (List.range chartData.length).map (fun i =>
    let data := (chartData.getD i ("", [])).2
    let ys := data.map (fun p => jnumOf p.2)
    let n : ℚ := (data.length : ℚ)
    (series.getD i "", jsMean ys n, jsStdev ys n))

theorem jsMean_num_fold (n : ℚ) (hn : n ≠ 0) :
    ∀ (qs : List ℚ) (a : ℚ),
      (qs.map JVal.num).foldl (fun acc y => jadd acc (jdiv y (JVal.num n)))
          (JVal.num a) =
        JVal.num (a + qs.sum / n) := by
  intro qs
  induction qs with
  | nil => intro a; simp [jdiv, hn]
  | cons q qs ih =>
    intro a
    rw [List.map_cons, List.foldl_cons]
    have hstep : jadd (JVal.num a) (jdiv (JVal.num q) (JVal.num n)) =
        JVal.num (a + q / n) := by
      simp [jadd, jdiv, hn]
    rw [hstep, ih (a + q / n), List.sum_cons]
    congr 1
    rw [add_div]
    ring

theorem jsMean_num (qs : List ℚ) (n : ℚ) (hn : n ≠ 0) :
    jsMean (qs.map JVal.num) n = JVal.num (qs.sum / n) := by
  unfold jsMean
  rw [jsMean_num_fold n hn qs 0]
  rw [zero_add]

theorem jsVar_num_fold (m : ℚ) :
    ∀ (qs : List ℚ) (a : ℚ),
      (qs.map JVal.num).foldl
          (fun acc y => jadd acc (jpow2 (jsub y (JVal.num m)))) (JVal.num a) =
        JVal.num (a + (qs.map (fun y => (y - m) ^ 2)).sum) := by
  intro qs
  induction qs with
  | nil => intro a; simp
  | cons q qs ih =>
    intro a
    rw [List.map_cons, List.foldl_cons]
    have hstep : jadd (JVal.num a) (jpow2 (jsub (JVal.num q) (JVal.num m))) =
        JVal.num (a + (q - m) ^ 2) := by
      simp [jadd, jsub, jpow2, jmul, pow_two]
    rw [hstep, ih (a + (q - m) ^ 2), List.map_cons, List.sum_cons]
    congr 1
    ring

theorem jsVarNum_num (qs : List ℚ) (m n : ℚ) (hn : n ≠ 0) :
    jsVarNum (qs.map JVal.num) (JVal.num m) n =
      JVal.num ((qs.map (fun y => (y - m) ^ 2)).sum / n) := by
  unfold jsVarNum
  rw [jsVar_num_fold m qs 0, zero_add]
  simp [jdiv, hn]

/-- C6: for a channel with n ≥ 1 samples the mean is the sum of that
channel's own samples over n, and the radicand of the standard deviation is
the population variance — the sum of squared deviations divided by N, not
N − 1; and in particular for the channel values [2, 4, 4, 4, 5, 5, 7, 9]
the statistics are mean 5 and standard deviation 2, with a relative
standard deviation of 40 %. -/
theorem c6_statistics (qs : List ℚ) (h : qs ≠ []) :
    jsMean (qs.map JVal.num) (qs.length : ℚ) =
        JVal.num (qs.sum / (qs.length : ℚ)) ∧
      jsVarNum (qs.map JVal.num) (JVal.num (qs.sum / (qs.length : ℚ)))
          (qs.length : ℚ) =
        JVal.num ((qs.map (fun y => (y - qs.sum / (qs.length : ℚ)) ^ 2)).sum /
          (qs.length : ℚ)) ∧
      calculateStatisticsCore ["A"]
          [("A", [(0, Json.num 2), (1, Json.num 4), (2, Json.num 4),
            (3, Json.num 4), (4, Json.num 5), (5, Json.num 5),
            (6, Json.num 7), (7, Json.num 9)])] =
        [("A", JVal.num 5, JVal.num 2)] ∧
      jsRsd (JVal.num 2) (JVal.num 5) = JVal.num 40 := by
  have h0 : qs.length ≠ 0 := by simpa using h
  have hn : (qs.length : ℚ) ≠ 0 := Nat.cast_ne_zero.mpr h0
  refine ⟨jsMean_num qs _ hn, jsVarNum_num qs _ _ hn, by with_unfolding_all rfl, by with_unfolding_all rfl⟩

/-- Witness for `c6_statistics` at the concrete channel values of the
claim. -/
theorem c6_statistics_witness :
    jsMean (([2, 4, 4, 4, 5, 5, 7, 9] : List ℚ).map JVal.num)
        (([2, 4, 4, 4, 5, 5, 7, 9] : List ℚ).length : ℚ) =
      JVal.num (([2, 4, 4, 4, 5, 5, 7, 9] : List ℚ).sum /
        (([2, 4, 4, 4, 5, 5, 7, 9] : List ℚ).length : ℚ)) :=
  (c6_statistics [2, 4, 4, 4, 5, 5, 7, 9] (by simp)).1

/-- C7: degenerate statistics never fault.  A channel with zero samples
yields mean 0 (the empty fold) and standard deviation NaN (the square root
of 0/0), both defined sentinel values; and whenever the mean is 0 the
relative standard deviation is NaN or Infinity — a defined sentinel, never
a fault — whatever the channel data. -/
theorem c7_degenerate_statistics :
    calculateStatisticsCore ["A"] [("A", ([] : List (Nat × Json)))] =
        [("A", JVal.num 0, JVal.nan)] ∧
      ∀ (ys : List JVal) (n : ℚ),
        jsRsd (jsStdev ys n) (JVal.num 0) = JVal.nan ∨
          jsRsd (jsStdev ys n) (JVal.num 0) = JVal.inf := by
  constructor
  · with_unfolding_all rfl
  · intro ys n
    unfold jsRsd jsStdev
    cases hv : jsVarNum ys (jsMean ys n) n with
    | num a =>
      by_cases ha : a < 0
      · simp [jsqrt, ha, jdiv, jmul]
      · have hs : (0 : ℚ) ≤ ratSqrt a := by
          unfold ratSqrt
          positivity
        by_cases hz : ratSqrt a = 0
        · simp [jsqrt, ha, hz, jdiv, jmul]
        · have hpos : 0 < ratSqrt a := lt_of_le_of_ne hs (Ne.symm hz)
          simp [jsqrt, ha, jdiv, hz, hpos, jmul]
    | nan => simp [jsqrt, jdiv, jmul]
    | inf => simp [jsqrt, jdiv, jmul]
    | ninf => simp [jsqrt, jdiv, jmul]

/-! ## CSV export (`exportToCSV`, src/unnamed/part_001 lines 320-354) -/

/-- `Array.prototype.join(",")`. -/
def commaJoin : List String → String
  | [] => ""
  | x :: xs => xs.foldl (fun a s => a ++ "," ++ s) x

/-- How `Array.prototype.join` renders one pushed field: `undefined` (an
absent channel) and `null` render as the empty string, numbers and strings
by their string conversion.  Integer rationals render as their decimal
digits; the fallback rendering of a non-integer rational is schematic (no
claim renders one). -/
def renderField : Option Json → String
  | none => ""
  | some Json.null => ""
  | some (Json.bool true) => "true"
  | some (Json.bool false) => "false"
  | some (Json.num q) =>
    if q.den = 1 then toString q.num
    else toString q.num ++ "/" ++ toString q.den
  | some (Json.str s) => s
  | some (Json.obj _) => "[object Object]"

/-- The parse step of the CSV row loop: a record that `JSON.parse` rejects
lands in the `catch` and produces no row; a record parsing to JSON `null`
also produces no row, because the first `dataObject[seriesKey]` access
throws into the same `catch` (when at least one channel is registered,
which holds whenever there is any row to export). -/
def csvParse (r : String) : Option Json :=
  match parseJson r with
  | some Json.null => none
  | x => x

/-- One data row: the sample index followed by one field per registered
channel, in registry order (`rowData` in the source). -/
def csvFieldsRow (series : List String) (i : Nat) (j : Json) : List String :=
  toString i :: series.map (fun k => renderField (jsGet j k))

/-- `exportToCSV`'s accumulated string (src/unnamed/part_001 lines
320-343): the data-URI prefix, the header `sample,` plus the channel names
in registry order, then one line per record that parses, built by the
`forEach` over the log with its index. -/
def exportToCSVData (series : List String) (log : List String) : String :=
  let header := "data:text/csv;charset=utf-8,sample," ++ commaJoin series ++ "\n"
  log.enum.foldl
    (fun acc p =>
      match csvParse p.2 with
      | none => acc
      | some j => acc ++ commaJoin (csvFieldsRow series p.1 j) ++ "\n")
    header

/-- Specification-side header row text. -/
def csvHeader (series : List String) : String :=
  "sample," ++ commaJoin series

/-- Specification-side data rows, as field lists, starting at sample index
`i`: one row per entry of the log that parses, none for an entry that does
not. -/
def csvDataRows (series : List String) : Nat → List String → List (List String)
  | _, [] => []
  | i, r :: rs =>
    match csvParse r with
    | none => csvDataRows series (i + 1) rs
    | some j => csvFieldsRow series i j :: csvDataRows series (i + 1) rs

/-- Specification-side data rows rendered to text. -/
def csvRowsText (series : List String) : Nat → List String → String
  | _, [] => ""
  | i, r :: rs =>
    match csvParse r with
    | none => csvRowsText series (i + 1) rs
    | some j =>
      commaJoin (csvFieldsRow series i j) ++ "\n" ++ csvRowsText series (i + 1) rs

theorem exportToCSV_fold (series : List String) :
    ∀ (log : List String) (i : Nat) (acc : String),
      (List.enumFrom i log).foldl
          (fun acc p =>
            match csvParse p.2 with
            | none => acc
            | some j => acc ++ commaJoin (csvFieldsRow series p.1 j) ++ "\n")
          acc =
        acc ++ csvRowsText series i log := by
  intro log
  induction log with
  | nil =>
    intro i acc
    rw [List.enumFrom_nil, List.foldl_nil, csvRowsText, String.append_empty]
  | cons r rs ih =>
    intro i acc
    rw [List.enumFrom_cons, List.foldl_cons, csvRowsText]
    cases hp : csvParse r with
    | none => simp only [hp, ih]
    | some j =>
      simp only [hp, ih]
      simp [String.append_assoc]

theorem csvDataRows_length (series : List String) :
    ∀ (log : List String) (i : Nat),
      (csvDataRows series i log).length =
        log.countP (fun r => (csvParse r).isSome) := by
  intro log
  induction log with
  | nil => intro i; rfl
  | cons r rs ih =>
    intro i
    rw [csvDataRows, List.countP_cons]
    cases hp : csvParse r with
    | none => simp [hp, ih]
    | some j => simp [hp, ih]

theorem csvDataRows_row_length (series : List String) :
    ∀ (log : List String) (i : Nat) (row : List String),
      row ∈ csvDataRows series i log → row.length = series.length + 1 := by
  intro log
  induction log with
  | nil => intro i row h; simp [csvDataRows] at h
  | cons r rs ih =>
    intro i row h
    rw [csvDataRows] at h
    cases hp : csvParse r with
    | none =>
      rw [hp] at h
      exact ih (i + 1) row h
    | some j =>
      rw [hp] at h
      rcases List.mem_cons.mp h with heq | hmem
      · subst heq
        simp [csvFieldsRow]
      · exact ih (i + 1) row hmem

/-- C5 (amended): the CSV text is the data-URI prefix, the header row
`sample,` followed by the channel names in registry order, then one data
row per log entry that parses (a malformed entry contributes no row); every
data row has the sample index first and exactly one field per registered
channel — a channel absent from a record yields an empty field in its
column, which is distinct from a rendered zero, and the column is never
omitted. -/
theorem c5_csv_shape (series log : List String) (row : List String)
    (hrow : row ∈ csvDataRows series 0 log) :
    exportToCSVData series log =
        "data:text/csv;charset=utf-8," ++ csvHeader series ++ "\n" ++
          csvRowsText series 0 log ∧
      (csvDataRows series 0 log).length =
        log.countP (fun r => (csvParse r).isSome) ∧
      row.length = series.length + 1 ∧
      renderField none = "" ∧
      renderField (some (Json.num 0)) = "0" ∧
      csvHeader ["x", "y"] = "sample,x,y" := by
  refine ⟨?_, csvDataRows_length series log 0,
    csvDataRows_row_length series log 0 row hrow, rfl, by decide, by decide⟩
  unfold exportToCSVData
  rw [show log.enum = List.enumFrom 0 log from rfl, exportToCSV_fold, csvHeader]
  simp only [← String.append_assoc]
  with_unfolding_all rfl

/-- Witness for `c5_csv_shape` at a one-channel log whose second record is
malformed: the single produced row is ["0", "1"]. -/
theorem c5_csv_shape_witness :
    exportToCSVData ["x"] ["\x7b\x22x\x22:1\x7d", "not json"] =
        "data:text/csv;charset=utf-8," ++ csvHeader ["x"] ++ "\n" ++
          csvRowsText ["x"] 0 ["\x7b\x22x\x22:1\x7d", "not json"] ∧
      (csvDataRows ["x"] 0 ["\x7b\x22x\x22:1\x7d", "not json"]).length =
        (["\x7b\x22x\x22:1\x7d", "not json"] : List String).countP
          (fun r => (csvParse r).isSome) ∧
      (["0", "1"] : List String).length = (["x"] : List String).length + 1 ∧
      renderField none = "" ∧
      renderField (some (Json.num 0)) = "0" ∧
      csvHeader ["x", "y"] = "sample,x,y" :=
  c5_csv_shape ["x"] ["\x7b\x22x\x22:1\x7d", "not json"] ["0", "1"]
    (by with_unfolding_all decide)

/-- C5 counterexample: with one registered channel and the two-record log
{"x":1}, `not json`, the export produces a single data row (for the record
that parses) — not one row per log entry as the claim states. -/
theorem c5_counterexample :
    csvDataRows ["x"] 0 ["\x7b\x22x\x22:1\x7d", "not json"] = [["0", "1"]] ∧
      (["\x7b\x22x\x22:1\x7d", "not json"] : List String).length = 2 := by
  refine ⟨by with_unfolding_all decide, rfl⟩

end ASDV
